import Mathlib

/-!
Shallow embedding of `cpp/include/cudf/table/row_operators.cuh` (namespace
`cudf::exp`): the tri-state `element_relational_comparator`, the type-dispatch
path that aborts on relationally non-comparable element types, and the
`row_lexicographic_comparator` that composes per-column verdicts into a
lexicographic "row is less" predicate.

Modelling conventions:
* Fixed-width numeric element values are modelled as `Int` (only their strict
  order `<` is consulted by the source).
* A column's runtime type tag is `DType`; `is_relationally_comparable` models
  the `cudf::is_relationally_comparable<T, T>()` trait, with `CATEGORY`
  standing for a type without a relational order.
* The `release_assert(false)` abort in the non-comparable overload, reached
  through `type_dispatcher`, is modelled by returning `none`; a verdict that is
  actually produced is `some st`.
* The C++ `for (i = 0; i < num_columns; ++i)` loop with early returns is the
  structural recursion `lex_less_go i fuel`, where `fuel` is the number of
  columns not yet examined (`fuel = num_columns - i`); exhausting the columns
  returns `false` exactly as the loop's fall-through does.
-/

namespace cudf

/-- Result type of `element_relational_comparator` (`weak_ordering` in the
source): how two elements compare. -/
inductive weak_ordering
  | LESS
  | EQUIVALENT
  | GREATER
deriving DecidableEq, Repr

/-- Null-ordering policy (`null_size` in the source): whether nulls compare
lower or higher than all other values. -/
inductive null_size
  | LOWEST
  | HIGHEST
deriving DecidableEq, Repr

/-- Per-column sort direction (`order` in the source). -/
inductive order
  | ASCENDING
  | DESCENDING
deriving DecidableEq, Repr

/-- Runtime element type tag. `CATEGORY` models an element type with no
relational order; the numeric/timestamp tags all order as `Int`. -/
inductive DType
  | INT8
  | INT32
  | INT64
  | TIMESTAMP
  | CATEGORY
deriving DecidableEq, Repr

/-- Models the `cudf::is_relationally_comparable<Element, Element>()` trait
used by the two `std::enable_if_t` overloads of the element comparator. -/
def is_relationally_comparable : DType → Bool
  | .CATEGORY => false
  | _ => true

/-- A `column_device_view`: type tag, data buffer, and optional validity
bitmap (`some m`: entry `true` means the element is valid / not null;
`none`: the column is not nullable). -/
structure column_device_view where
  dtype : DType
  data : List Int
  validity : Option (List Bool)

instance : Inhabited column_device_view :=
  ⟨⟨DType.INT32, [], none⟩⟩

/-- `column_device_view::nullable()`: whether a validity bitmap is present. -/
def column_device_view.nullable (c : column_device_view) : Bool :=
  c.validity.isSome

/-- `column_device_view::is_null(i)`: reads the validity bit (only meaningful
when `nullable`). -/
def column_device_view.is_null (c : column_device_view) (i : Nat) : Bool :=
  match c.validity with
  | some m => !(m.getD i true)
  | none => false

/-- The null test the source performs per side:
`lhs.nullable() and lhs.is_null(lhs_element_index)`. -/
def null_at (c : column_device_view) (i : Nat) : Bool :=
  c.nullable && c.is_null i

/-- The value-comparison tail of `element_relational_comparator::operator()`:
read both elements and compare with the element type's `operator<`. -/
def compare_data (lhs : column_device_view) (lhs_element_index : Nat)
    (rhs : column_device_view) (rhs_element_index : Nat) : weak_ordering :=
  let lhs_element := lhs.data.getD lhs_element_index 0
  let rhs_element := rhs.data.getD rhs_element_index 0
  if lhs_element < rhs_element then .LESS
  else if rhs_element < lhs_element then .GREATER
  else .EQUIVALENT

/-- `element_relational_comparator<has_nulls>::operator()` for a relationally
comparable element type (source lines 64-95): null handling first (only when
`has_nulls`), then the native value comparison. -/
def element_relational_comparator (has_nulls : Bool)
    (lhs : column_device_view) (lhs_element_index : Nat)
    (rhs : column_device_view) (rhs_element_index : Nat)
    (size_of_nulls : null_size) : weak_ordering :=
  if has_nulls then
    if null_at lhs lhs_element_index && null_at rhs rhs_element_index then
      .EQUIVALENT
    else if null_at lhs lhs_element_index then
      if size_of_nulls = null_size.LOWEST then .LESS else .GREATER
    else if null_at rhs rhs_element_index then
      if size_of_nulls = null_size.HIGHEST then .LESS else .GREATER
    else
      compare_data lhs lhs_element_index rhs rhs_element_index
  else
    compare_data lhs lhs_element_index rhs rhs_element_index

/-- Models `cudf::exp::type_dispatcher(t, element_relational_comparator{...})`:
for a relationally comparable runtime tag `t` the dispatched specialization
runs and produces a verdict; for a non-comparable tag the selected overload
(source lines 97-106) executes `release_assert(false)` and aborts the whole
operation, modelled as `none`. -/
def dispatched_element_comparator (has_nulls : Bool) (t : DType)
    (lhs : column_device_view) (lhs_element_index : Nat)
    (rhs : column_device_view) (rhs_element_index : Nat)
    (size_of_nulls : null_size) : Option weak_ordering :=
  if is_relationally_comparable t then
    some (element_relational_comparator has_nulls lhs lhs_element_index
      rhs rhs_element_index size_of_nulls)
  else
    none

/-- A `table_device_view`: an ordered sequence of column views. -/
structure table_device_view where
  cols : List column_device_view

/-- `table_device_view::num_columns()`. -/
def table_device_view.num_columns (t : table_device_view) : Nat :=
  t.cols.length

/-- `table_device_view::column(i)`. -/
def table_device_view.column (t : table_device_view) (i : Nat) :
    column_device_view :=
  t.cols.getD i default

/-- State of a constructed `row_lexicographic_comparator`. The
`order* column_order` device array is modelled as an optional function
(`none` = `nullptr`). -/
structure row_lexicographic_comparator where
  _lhs : table_device_view
  _rhs : table_device_view
  _size_of_nulls : null_size
  _column_order : Option (Nat → order)

/-- The constructor (source lines 140-149): `CUDF_EXPECTS` rejects the
construction (throws, modelled as `none`) when the column counts differ;
otherwise the comparator is built. -/
def make_row_lexicographic_comparator (lhs rhs : table_device_view)
    (size_of_nulls : null_size) (column_order : Option (Nat → order)) :
    Option row_lexicographic_comparator :=
  if lhs.num_columns = rhs.num_columns then
    some ⟨lhs, rhs, size_of_nulls, column_order⟩
  else
    none

/-- One iteration body of `row_lexicographic_comparator::operator()` (source
lines 162-178): compute the `ascending` flag from `_column_order`, then
dispatch the element comparator on column `i`'s type, with the two operands
swapped when descending. -/
def column_state (has_nulls : Bool) (c : row_lexicographic_comparator)
    (lhs_index rhs_index i : Nat) : Option weak_ordering :=
  let ascending : Bool :=
    match c._column_order with
    | none => true
    | some co => co i = order.ASCENDING
  if ascending then
    dispatched_element_comparator has_nulls (c._lhs.column i).dtype
      (c._lhs.column i) lhs_index (c._rhs.column i) rhs_index c._size_of_nulls
  else
    dispatched_element_comparator has_nulls (c._lhs.column i).dtype
      (c._rhs.column i) rhs_index (c._lhs.column i) lhs_index c._size_of_nulls

/-- The column loop of `row_lexicographic_comparator::operator()` starting at
column `i` with `fuel` columns left to examine: an `EQUIVALENT` verdict moves
to the next column, a decided verdict returns `state == LESS`, an abort
propagates, and running out of columns returns `false` (the loop's
fall-through `return false`). -/
def lex_less_go (has_nulls : Bool) (c : row_lexicographic_comparator)
    (lhs_index rhs_index : Nat) : Nat → Nat → Option Bool
  | _, 0 => some false
  | i, fuel + 1 =>
    match column_state has_nulls c lhs_index rhs_index i with
    | none => none
    | some .EQUIVALENT => lex_less_go has_nulls c lhs_index rhs_index (i + 1) fuel
    | some st => some (decide (st = weak_ordering.LESS))

/-- `row_lexicographic_comparator::operator()(lhs_index, rhs_index)` (source
lines 160-187): run the column loop from column 0 over all
`_lhs.num_columns()` columns. -/
def isLess (has_nulls : Bool) (c : row_lexicographic_comparator)
    (lhs_index rhs_index : Nat) : Option Bool :=
  lex_less_go has_nulls c lhs_index rhs_index 0 c._lhs.num_columns

/-- The direction the loop uses for column `i`: ascending when
`_column_order == nullptr`, else `_column_order[i]`. -/
def order_at (co : Option (Nat → order)) (i : Nat) : order :=
  match co with
  | none => order.ASCENDING
  | some f => f i

/-!
Analysis machinery (not itself part of the source): each element, together
with the null policy, determines a sort key in `Int` extended by two
infinities; the element comparator is exactly the three-way comparison of
these keys, and the descending swap is key negation. This reduces the row
comparator to a three-way lexicographic comparison of key lists, from which
the ordering laws follow.
-/

/-- Sort key of one element: an integer value, or an artificial key below
(`negInf`) or above (`posInf`) every value, used for nulls. -/
inductive NullKey
  | negInf
  | val (v : Int)
  | posInf
deriving DecidableEq, Repr

/-- Three-way comparison of integers. -/
def int_cmp3 (a b : Int) : weak_ordering :=
  if a < b then .LESS else if b < a then .GREATER else .EQUIVALENT

/-- Three-way comparison of keys: `negInf < val _ < posInf`. -/
def key_cmp3 : NullKey → NullKey → weak_ordering
  | .negInf, .negInf => .EQUIVALENT
  | .negInf, .val _ => .LESS
  | .negInf, .posInf => .LESS
  | .val _, .negInf => .GREATER
  | .val a, .val b => int_cmp3 a b
  | .val _, .posInf => .LESS
  | .posInf, .negInf => .GREATER
  | .posInf, .val _ => .GREATER
  | .posInf, .posInf => .EQUIVALENT

/-- Order-reversing involution on keys. -/
def flip_key : NullKey → NullKey
  | .negInf => .posInf
  | .val v => .val (-v)
  | .posInf => .negInf

/-- Apply a column direction to a key: descending columns use the reversed
order. -/
def dir_key : order → NullKey → NullKey
  | .ASCENDING, k => k
  | .DESCENDING, k => flip_key k

/-- The key of the element at row `r` of column `c`: nulls (when the
comparator instance checks for them) map to the policy's infinity, values to
themselves. -/
def elem_key (has_nulls : Bool) (s : null_size) (c : column_device_view)
    (r : Nat) : NullKey :=
  if has_nulls && null_at c r then
    if s = null_size.LOWEST then .negInf else .posInf
  else
    .val (c.data.getD r 0)

/-- The opposite of a verdict, as produced by swapping the two operands. -/
def opp : weak_ordering → weak_ordering
  | .LESS => .GREATER
  | .EQUIVALENT => .EQUIVALENT
  | .GREATER => .LESS

/-- Three-way lexicographic comparison of two key lists: first non-equivalent
position decides. -/
def keys_cmp3 : List NullKey → List NullKey → weak_ordering
  | [], _ => .EQUIVALENT
  | _ :: _, [] => .EQUIVALENT
  | x :: xs, y :: ys =>
    match key_cmp3 x y with
    | .EQUIVALENT => keys_cmp3 xs ys
    | st => st

/-- Keys of the row `r` slice of table `t` for columns `i, i+1, ...` (`fuel`
of them), with each column's direction applied. -/
def row_keys_from (has_nulls : Bool) (s : null_size) (t : table_device_view)
    (co : Option (Nat → order)) (r : Nat) : Nat → Nat → List NullKey
  | _, 0 => []
  | i, fuel + 1 =>
    dir_key (order_at co i) (elem_key has_nulls s (t.column i) r)
      :: row_keys_from has_nulls s t co r (i + 1) fuel

/-- Keys of the full row `r` of table `t`. -/
def row_keys (has_nulls : Bool) (s : null_size) (t : table_device_view)
    (co : Option (Nat → order)) (r : Nat) : List NullKey :=
  row_keys_from has_nulls s t co r 0 t.num_columns

/-- Reference comparison for the refinement claim, modelled from the spec
sentence "for all rows with no nulls in either operand, `isLess` reduces to
pure lexicographic comparison of the underlying typed values in column
order" (with per-column direction applied): walk columns `i, i+1, ...`
(`fuel` of them), skip equal values, and decide at the first differing value
by the column's direction; all columns equal means not less. -/
def spec_lex_walk (t u : table_device_view) (co : Option (Nat → order))
    (a b : Nat) : Nat → Nat → Bool
  | _, 0 => false
  | i, fuel + 1 =>
    let x := (t.column i).data.getD a 0
    let y := (u.column i).data.getD b 0
    if x = y then spec_lex_walk t u co a b (i + 1) fuel
    else
      match order_at co i with
      | .ASCENDING => decide (x < y)
      | .DESCENDING => decide (y < x)

/-- Reference lexicographic row comparison over all columns (spec-modelled,
see `spec_lex_walk`). -/
def spec_lex_less (t u : table_device_view) (co : Option (Nat → order))
    (a b : Nat) : Bool :=
  spec_lex_walk t u co a b 0 t.num_columns

/-- Concrete data for instantiating the theorems: a single non-nullable
integer column with three rows. -/
def wcol1 : column_device_view :=
  ⟨DType.INT32, [1, 2, 3], none⟩

/-- Concrete nullable integer column: row 0 is null, row 1 holds 7. -/
def wcolN : column_device_view :=
  ⟨DType.INT32, [5, 7], some [false, true]⟩

/-- Concrete non-nullable integer column with two rows. -/
def wcolP : column_device_view :=
  ⟨DType.INT32, [9, 4], none⟩

/-- Concrete column of the non-comparable element type. -/
def wcolC : column_device_view :=
  ⟨DType.CATEGORY, [0], none⟩

/-- Concrete one-column table over `wcol1`. -/
def wtab1 : table_device_view :=
  ⟨[wcol1]⟩

/-- All-ascending column order. -/
def wco : Nat → order :=
  fun _ => order.ASCENDING

/-- Column order that is descending exactly at column 0. -/
def wco2 : Nat → order :=
  fun j => if j = 0 then order.DESCENDING else order.ASCENDING

/-- All-descending column order. -/
def wcoD : Nat → order :=
  fun _ => order.DESCENDING

lemma int_cmp3_swap (a b : Int) : int_cmp3 b a = opp (int_cmp3 a b) := by
  unfold int_cmp3 opp
  split_ifs <;> first | rfl | omega

lemma int_cmp3_neg (a b : Int) : int_cmp3 (-a) (-b) = int_cmp3 b a := by
  unfold int_cmp3
  split_ifs <;> first | rfl | omega

lemma int_cmp3_refl (a : Int) : int_cmp3 a a = .EQUIVALENT := by
  unfold int_cmp3
  split_ifs <;> first | rfl | omega

lemma int_cmp3_eq_less {a b : Int} : int_cmp3 a b = .LESS ↔ a < b := by
  unfold int_cmp3
  split_ifs <;> simp_all

lemma int_cmp3_eq_equiv {a b : Int} : int_cmp3 a b = .EQUIVALENT ↔ a = b := by
  unfold int_cmp3
  split_ifs <;> simp_all <;> omega

lemma key_cmp3_refl (x : NullKey) : key_cmp3 x x = .EQUIVALENT := by
  cases x <;> simp [key_cmp3, int_cmp3_refl]

lemma key_cmp3_swap (x y : NullKey) : key_cmp3 y x = opp (key_cmp3 x y) := by
  cases x <;> cases y <;> simp only [key_cmp3, opp] <;>
    first | rfl | exact int_cmp3_swap _ _

lemma key_cmp3_flip (x y : NullKey) :
    key_cmp3 (flip_key x) (flip_key y) = key_cmp3 y x := by
  cases x <;> cases y <;> simp [key_cmp3, flip_key, int_cmp3_neg]

lemma key_cmp3_trans_less {x y z : NullKey} (h1 : key_cmp3 x y = .LESS)
    (h2 : key_cmp3 y z = .LESS) : key_cmp3 x z = .LESS := by
  cases x <;> cases y <;> cases z <;>
    simp_all [key_cmp3, int_cmp3_eq_less] <;> omega

lemma key_cmp3_trans_equiv {x y z : NullKey} (h1 : key_cmp3 x y = .EQUIVALENT)
    (h2 : key_cmp3 y z = .EQUIVALENT) : key_cmp3 x z = .EQUIVALENT := by
  cases x <;> cases y <;> cases z <;>
    simp_all [key_cmp3, int_cmp3_eq_equiv]

lemma key_cmp3_equiv_less {x y z : NullKey} (h1 : key_cmp3 x y = .EQUIVALENT)
    (h2 : key_cmp3 y z = .LESS) : key_cmp3 x z = .LESS := by
  cases x <;> cases y <;> cases z <;>
    simp_all [key_cmp3, int_cmp3_eq_less, int_cmp3_eq_equiv]

lemma key_cmp3_less_equiv {x y z : NullKey} (h1 : key_cmp3 x y = .LESS)
    (h2 : key_cmp3 y z = .EQUIVALENT) : key_cmp3 x z = .LESS := by
  cases x <;> cases y <;> cases z <;>
    simp_all [key_cmp3, int_cmp3_eq_less, int_cmp3_eq_equiv]

lemma keys_cmp3_refl (xs : List NullKey) : keys_cmp3 xs xs = .EQUIVALENT := by
  induction xs with
  | nil => rfl
  | cons x xs ih => simp [keys_cmp3, key_cmp3_refl, ih]

lemma keys_cmp3_swap (xs ys : List NullKey) :
    keys_cmp3 ys xs = opp (keys_cmp3 xs ys) := by
  induction xs generalizing ys with
  | nil => cases ys <;> rfl
  | cons x xs ih =>
    cases ys with
    | nil => rfl
    | cons y ys =>
      simp only [keys_cmp3, key_cmp3_swap x y]
      cases h : key_cmp3 x y <;> simp [opp, ih]

lemma keys_cmp3_trans_less {xs ys zs : List NullKey}
    (h1 : keys_cmp3 xs ys = .LESS) (h2 : keys_cmp3 ys zs = .LESS) :
    keys_cmp3 xs zs = .LESS := by
  induction xs generalizing ys zs with
  | nil => simp [keys_cmp3] at h1
  | cons x xs ih =>
    cases ys with
    | nil => simp [keys_cmp3] at h1
    | cons y ys =>
      cases zs with
      | nil => simp [keys_cmp3] at h2
      | cons z zs =>
        simp only [keys_cmp3] at h1 h2 ⊢
        cases hxy : key_cmp3 x y <;> simp only [hxy] at h1 <;>
          cases hyz : key_cmp3 y z <;> simp only [hyz] at h2 <;>
          first
          | exact absurd h1 (by decide)
          | exact absurd h2 (by decide)
          | simp [key_cmp3_trans_less hxy hyz]
          | simp [key_cmp3_equiv_less hxy hyz]
          | simp [key_cmp3_less_equiv hxy hyz]
          | (simp only [key_cmp3_trans_equiv hxy hyz]; exact ih h1 h2)

lemma keys_cmp3_trans_equiv {xs ys zs : List NullKey}
    (hlen1 : xs.length = ys.length) (hlen2 : ys.length = zs.length)
    (h1 : keys_cmp3 xs ys = .EQUIVALENT) (h2 : keys_cmp3 ys zs = .EQUIVALENT) :
    keys_cmp3 xs zs = .EQUIVALENT := by
  induction xs generalizing ys zs with
  | nil =>
    cases ys with
    | nil =>
      cases zs with
      | nil => rfl
      | cons z zs => simp at hlen2
    | cons y ys => simp at hlen1
  | cons x xs ih =>
    cases ys with
    | nil => simp at hlen1
    | cons y ys =>
      cases zs with
      | nil => simp at hlen2
      | cons z zs =>
        simp only [keys_cmp3] at h1 h2 ⊢
        cases hxy : key_cmp3 x y <;> simp only [hxy] at h1 <;>
          cases hyz : key_cmp3 y z <;> simp only [hyz] at h2 <;>
          first
          | exact absurd h1 (by decide)
          | exact absurd h2 (by decide)
          | (simp only [key_cmp3_trans_equiv hxy hyz]
             exact ih (by simpa using hlen1) (by simpa using hlen2) h1 h2)

lemma keys_cmp3_eq_equiv_of_not_less {xs ys : List NullKey}
    (h1 : keys_cmp3 xs ys ≠ .LESS) (h2 : keys_cmp3 ys xs ≠ .LESS) :
    keys_cmp3 xs ys = .EQUIVALENT := by
  rw [keys_cmp3_swap xs ys] at h2
  cases h : keys_cmp3 xs ys with
  | LESS => exact absurd h h1
  | EQUIVALENT => rfl
  | GREATER =>
    rw [h] at h2
    simp [opp] at h2

lemma row_keys_from_length (has_nulls : Bool) (s : null_size)
    (t : table_device_view) (co : Option (Nat → order)) (r : Nat) :
    ∀ fuel i, (row_keys_from has_nulls s t co r i fuel).length = fuel := by
  intro fuel
  induction fuel with
  | zero => intro i; rfl
  | succ n ih => intro i; simp [row_keys_from, ih]

/-- The element comparator is exactly the three-way comparison of the two
elements' keys. -/
lemma element_relational_comparator_eq_key (has_nulls : Bool) (s : null_size)
    (lhs : column_device_view) (i : Nat) (rhs : column_device_view) (j : Nat) :
    element_relational_comparator has_nulls lhs i rhs j s
      = key_cmp3 (elem_key has_nulls s lhs i) (elem_key has_nulls s rhs j) := by
  cases has_nulls with
  | false =>
    simp [element_relational_comparator, elem_key, key_cmp3, compare_data,
      int_cmp3]
  | true =>
    cases hl : null_at lhs i <;> cases hr : null_at rhs j <;> cases s <;>
      simp [element_relational_comparator, elem_key, key_cmp3, hl, hr,
        compare_data, int_cmp3]

/-- Swapping the operands of the element comparator produces the opposite
verdict. -/
lemma element_relational_comparator_swap (has_nulls : Bool) (s : null_size)
    (lhs : column_device_view) (i : Nat) (rhs : column_device_view) (j : Nat) :
    element_relational_comparator has_nulls rhs j lhs i s
      = opp (element_relational_comparator has_nulls lhs i rhs j s) := by
  rw [element_relational_comparator_eq_key, element_relational_comparator_eq_key,
    key_cmp3_swap]

/-- The `ascending` flag computed in the loop body agrees with `order_at`. -/
lemma column_state_eq_order_at (hn : Bool) (c : row_lexicographic_comparator)
    (li ri i : Nat) :
    column_state hn c li ri i =
      if order_at c._column_order i = order.ASCENDING then
        dispatched_element_comparator hn (c._lhs.column i).dtype
          (c._lhs.column i) li (c._rhs.column i) ri c._size_of_nulls
      else
        dispatched_element_comparator hn (c._lhs.column i).dtype
          (c._rhs.column i) ri (c._lhs.column i) li c._size_of_nulls := by
  unfold column_state order_at
  cases c._column_order with
  | none => simp
  | some f => by_cases h : f i = order.ASCENDING <;> simp [h]

/-- Swapping the operands of the dispatched comparator produces the opposite
verdict (and an abort stays an abort). -/
lemma dispatched_element_comparator_swap (hn : Bool) (t : DType)
    (lhs : column_device_view) (i : Nat) (rhs : column_device_view) (j : Nat)
    (s : null_size) :
    dispatched_element_comparator hn t rhs j lhs i s
      = (dispatched_element_comparator hn t lhs i rhs j s).map opp := by
  unfold dispatched_element_comparator
  cases hc : is_relationally_comparable t with
  | false => simp
  | true =>
    rw [if_pos rfl, if_pos rfl, element_relational_comparator_swap]
    rfl

/-- On a comparable column, the loop body's verdict is the three-way
comparison of the two direction-adjusted element keys. -/
lemma column_state_eq_key (hn : Bool) (c : row_lexicographic_comparator)
    (li ri i : Nat)
    (hc : is_relationally_comparable (c._lhs.column i).dtype = true) :
    column_state hn c li ri i = some (key_cmp3
      (dir_key (order_at c._column_order i)
        (elem_key hn c._size_of_nulls (c._lhs.column i) li))
      (dir_key (order_at c._column_order i)
        (elem_key hn c._size_of_nulls (c._rhs.column i) ri))) := by
  rw [column_state_eq_order_at]
  cases ho : order_at c._column_order i with
  | ASCENDING =>
    simp [dispatched_element_comparator, hc, dir_key,
      element_relational_comparator_eq_key]
  | DESCENDING =>
    simp [dispatched_element_comparator, hc, dir_key,
      element_relational_comparator_eq_key, key_cmp3_flip]

/-- The loop body depends on the two comparators only through the tables, the
policy, and the direction of the column at hand. -/
lemma column_state_congr (hn : Bool) (c c' : row_lexicographic_comparator)
    (li ri j : Nat)
    (hl : c._lhs = c'._lhs) (hr : c._rhs = c'._rhs)
    (hs : c._size_of_nulls = c'._size_of_nulls)
    (ho : order_at c._column_order j = order_at c'._column_order j) :
    column_state hn c li ri j = column_state hn c' li ri j := by
  rw [column_state_eq_order_at, column_state_eq_order_at, hl, hr, hs, ho]

/-- Bridge: when every examined column is relationally comparable, the column
loop computes the three-way lexicographic comparison of the key lists. -/
lemma lex_less_go_eq_keys (hn : Bool) (c : row_lexicographic_comparator)
    (li ri : Nat) :
    ∀ fuel i,
      (∀ j, i ≤ j → j < i + fuel →
        is_relationally_comparable ((c._lhs.column j).dtype) = true) →
      lex_less_go hn c li ri i fuel =
        some (decide (keys_cmp3
          (row_keys_from hn c._size_of_nulls c._lhs c._column_order li i fuel)
          (row_keys_from hn c._size_of_nulls c._rhs c._column_order ri i fuel)
            = weak_ordering.LESS)) := by
  intro fuel
  induction fuel with
  | zero => intro i _; rfl
  | succ n ih =>
    intro i h
    have hc : is_relationally_comparable ((c._lhs.column i).dtype) = true :=
      h i (le_refl i) (by omega)
    simp only [lex_less_go, row_keys_from, column_state_eq_key hn c li ri i hc]
    cases hk : key_cmp3
        (dir_key (order_at c._column_order i)
          (elem_key hn c._size_of_nulls (c._lhs.column i) li))
        (dir_key (order_at c._column_order i)
          (elem_key hn c._size_of_nulls (c._rhs.column i) ri)) with
    | EQUIVALENT =>
      simp only [keys_cmp3, hk]
      exact ih (i + 1) (fun j h1 h2 => h j (by omega) (by omega))
    | LESS => simp [keys_cmp3, hk]
    | GREATER => simp [keys_cmp3, hk]

/-- When every column in the examined range is equivalent, the loop falls
through and returns `false`. -/
lemma lex_less_go_all_equiv (hn : Bool) (c : row_lexicographic_comparator)
    (li ri : Nat) :
    ∀ fuel i,
      (∀ j, i ≤ j → j < i + fuel →
        column_state hn c li ri j = some weak_ordering.EQUIVALENT) →
      lex_less_go hn c li ri i fuel = some false := by
  intro fuel
  induction fuel with
  | zero => intro i _; rfl
  | succ n ih =>
    intro i h
    simp only [lex_less_go, h i (le_refl i) (by omega)]
    exact ih (i + 1) (fun j h1 h2 => h j (by omega) (by omega))

/-- When column `k` is the first column in the examined range whose verdict is
not `EQUIVALENT`, the loop's answer is that verdict's `LESS`-test (or the
abort, propagated), and later columns are never consulted. -/
lemma lex_less_go_decided (hn : Bool) (c : row_lexicographic_comparator)
    (li ri : Nat) :
    ∀ d i fuel k, i + d = k → k < i + fuel →
      (∀ j, i ≤ j → j < k →
        column_state hn c li ri j = some weak_ordering.EQUIVALENT) →
      column_state hn c li ri k ≠ some weak_ordering.EQUIVALENT →
      lex_less_go hn c li ri i fuel =
        (column_state hn c li ri k).map
          (fun st => decide (st = weak_ordering.LESS)) := by
  intro d
  induction d with
  | zero =>
    intro i fuel k hik hk _ hdec
    have hki : k = i := by omega
    subst hki
    cases fuel with
    | zero => omega
    | succ n =>
      simp only [lex_less_go]
      cases hs : column_state hn c li ri k with
      | none => simp
      | some st =>
        cases st with
        | LESS => simp
        | EQUIVALENT => exact absurd hs hdec
        | GREATER => simp
  | succ m ih =>
    intro i fuel k hik hk hprev hdec
    cases fuel with
    | zero => omega
    | succ n =>
      simp only [lex_less_go, hprev i (le_refl i) (by omega)]
      exact ih (i + 1) n k (by omega) (by omega)
        (fun j h1 h2 => hprev j (by omega) h2) hdec

/-- Key of a non-null element is just its value, for either comparator
instantiation and either policy. -/
lemma elem_key_of_not_null {hn : Bool} {s : null_size}
    {col : column_device_view} {r : Nat} (h : null_at col r = false) :
    elem_key hn s col r = NullKey.val (col.data.getD r 0) := by
  simp [elem_key, h]

/-- On comparable columns with no nulls at the examined rows, the column loop
computes the reference value-lexicographic comparison, for either comparator
instantiation and either null policy. -/
lemma lex_less_go_eq_spec_walk (hn : Bool) (c : row_lexicographic_comparator)
    (a b : Nat) :
    ∀ fuel i,
      (∀ j, i ≤ j → j < i + fuel →
        is_relationally_comparable ((c._lhs.column j).dtype) = true) →
      (∀ j, i ≤ j → j < i + fuel →
        null_at (c._lhs.column j) a = false ∧
          null_at (c._rhs.column j) b = false) →
      lex_less_go hn c a b i fuel =
        some (spec_lex_walk c._lhs c._rhs c._column_order a b i fuel) := by
  intro fuel
  induction fuel with
  | zero => intro i _ _; rfl
  | succ n ih =>
    intro i hcmp hnull
    have hc := hcmp i (le_refl i) (by omega)
    have hna := (hnull i (le_refl i) (by omega)).1
    have hnb := (hnull i (le_refl i) (by omega)).2
    have hkeyA := @elem_key_of_not_null hn c._size_of_nulls _ _ hna
    have hkeyB := @elem_key_of_not_null hn c._size_of_nulls _ _ hnb
    set x := (c._lhs.column i).data.getD a 0 with hx
    set y := (c._rhs.column i).data.getD b 0 with hy
    have hih := ih (i + 1) (fun j h1 h2 => hcmp j (by omega) (by omega))
      (fun j h1 h2 => hnull j (by omega) (by omega))
    simp only [lex_less_go, spec_lex_walk, column_state_eq_key hn c a b i hc,
      hkeyA, hkeyB]
    cases ho : order_at c._column_order i with
    | ASCENDING =>
      simp only [dir_key, key_cmp3]
      rcases lt_trichotomy x y with hxy | hxy | hxy
      · have h1 : int_cmp3 x y = .LESS := by
          unfold int_cmp3; split_ifs <;> first | rfl | omega
        have h2 : decide (x < y) = true := by simpa using hxy
        rw [if_neg (by omega)]
        simp only [h1, h2]
        rfl
      · rw [if_pos hxy]
        rw [hxy, int_cmp3_refl]
        exact hih
      · have h1 : int_cmp3 x y = .GREATER := by
          unfold int_cmp3; split_ifs <;> first | rfl | omega
        have h2 : decide (x < y) = false := by simp; omega
        rw [if_neg (by omega)]
        simp only [h1, h2]
        rfl
    | DESCENDING =>
      simp only [dir_key, flip_key, key_cmp3, int_cmp3_neg]
      rcases lt_trichotomy y x with hxy | hxy | hxy
      · have h1 : int_cmp3 y x = .LESS := by
          unfold int_cmp3; split_ifs <;> first | rfl | omega
        have h2 : decide (y < x) = true := by simpa using hxy
        rw [if_neg (by omega)]
        simp only [h1, h2]
        rfl
      · rw [if_pos hxy.symm]
        rw [hxy, int_cmp3_refl]
        exact hih
      · have h1 : int_cmp3 y x = .GREATER := by
          unfold int_cmp3; split_ifs <;> first | rfl | omega
        have h2 : decide (y < x) = false := by simp; omega
        rw [if_neg (by omega)]
        simp only [h1, h2]
        rfl

/-- Bridge at the `isLess` level: with every column comparable, the comparator
computes the three-way lexicographic comparison of the two rows' key lists. -/
lemma isLess_eq_keys (hn : Bool) (lhs rhs : table_device_view) (s : null_size)
    (co : Option (Nat → order))
    (hcmp : ∀ j, j < lhs.num_columns →
      is_relationally_comparable ((lhs.column j).dtype) = true)
    (li ri : Nat) :
    isLess hn ⟨lhs, rhs, s, co⟩ li ri =
      some (decide (keys_cmp3
        (row_keys_from hn s lhs co li 0 lhs.num_columns)
        (row_keys_from hn s rhs co ri 0 lhs.num_columns)
          = weak_ordering.LESS)) :=
  lex_less_go_eq_keys hn ⟨lhs, rhs, s, co⟩ li ri lhs.num_columns 0
    (fun j _ h2 => hcmp j (by omega))

/-- Comparing a row of a table with itself: every column's verdict is either
`EQUIVALENT` (comparable column) or the abort (non-comparable column). -/
lemma column_state_self (hn : Bool) (t : table_device_view) (s : null_size)
    (co : Option (Nat → order)) (r i : Nat) :
    column_state hn ⟨t, t, s, co⟩ r r i = some weak_ordering.EQUIVALENT ∨
      column_state hn ⟨t, t, s, co⟩ r r i = none := by
  cases hc : is_relationally_comparable ((t.column i).dtype) with
  | true =>
    left
    rw [column_state_eq_key hn ⟨t, t, s, co⟩ r r i hc, key_cmp3_refl]
  | false =>
    right
    rw [column_state_eq_order_at]
    split_ifs <;> simp [dispatched_element_comparator, hc]

/-- The loop comparing a row with itself never answers `true`: it either falls
through with `false` or aborts on a non-comparable column. -/
lemma lex_less_go_self_cases (hn : Bool) (t : table_device_view)
    (s : null_size) (co : Option (Nat → order)) (r : Nat) :
    ∀ fuel i, lex_less_go hn ⟨t, t, s, co⟩ r r i fuel = some false ∨
      lex_less_go hn ⟨t, t, s, co⟩ r r i fuel = none := by
  intro fuel
  induction fuel with
  | zero => intro i; left; rfl
  | succ n ih =>
    intro i
    rcases column_state_self hn t s co r i with h | h <;>
      simp only [lex_less_go, h]
    · exact ih (i + 1)
    · trivial

/-- C1: for every pair of tables with equal column counts and every row pair,
`isLess` walks the columns first to last, obtaining a tri-state verdict per
column (element comparator, operands swapped on descending columns), skips
`EQUIVALENT` columns, returns `true` iff the first non-`EQUIVALENT`
(swap-adjusted) verdict is `LESS` without consulting any later column, and
returns `false` when every column's verdict is `EQUIVALENT`. -/
theorem isLess_first_decision (has_nulls : Bool) (lhs rhs : table_device_view)
    (s : null_size) (co : Option (Nat → order)) (k li ri : Nat)
    (hcount : lhs.num_columns = rhs.num_columns) :
    ((∀ j, j < lhs.num_columns →
        column_state has_nulls ⟨lhs, rhs, s, co⟩ li ri j
          = some weak_ordering.EQUIVALENT) →
      isLess has_nulls ⟨lhs, rhs, s, co⟩ li ri = some false)
    ∧ (k < lhs.num_columns →
      (∀ j, j < k → column_state has_nulls ⟨lhs, rhs, s, co⟩ li ri j
        = some weak_ordering.EQUIVALENT) →
      column_state has_nulls ⟨lhs, rhs, s, co⟩ li ri k
        ≠ some weak_ordering.EQUIVALENT →
      isLess has_nulls ⟨lhs, rhs, s, co⟩ li ri =
        (column_state has_nulls ⟨lhs, rhs, s, co⟩ li ri k).map
          (fun st => decide (st = weak_ordering.LESS))) := by
  constructor
  · intro h
    exact lex_less_go_all_equiv has_nulls ⟨lhs, rhs, s, co⟩ li ri
      lhs.num_columns 0 (fun j _ h2 => h j (by omega))
  · intro hk hprev hdec
    exact lex_less_go_decided has_nulls ⟨lhs, rhs, s, co⟩ li ri k 0
      lhs.num_columns k (by omega) (by omega) (fun j _ hj => hprev j hj) hdec

theorem isLess_first_decision_witness :
    isLess true ⟨wtab1, wtab1, null_size.LOWEST, none⟩ 0 1 = some true := by
  have h := (isLess_first_decision true wtab1 wtab1 null_size.LOWEST none 0 0 1
    rfl).2 (by decide) (by decide) (by decide)
  rw [h]
  decide

/-- C2: at a relationally comparable element type (with null checking active),
the element comparator returns `EQUIVALENT` when both elements are null; when
only the left is null, `LESS` under "nulls lowest" and `GREATER` otherwise;
when only the right is null, the symmetric verdict; and when neither is null,
`LESS`/`GREATER`/`EQUIVALENT` by the native `<` on the two values. -/
theorem element_comparator_cases (lhs rhs : column_device_view) (i j : Nat)
    (s : null_size) (ht : lhs.dtype = rhs.dtype)
    (hc : is_relationally_comparable lhs.dtype = true)
    (hi : i < lhs.data.length) (hj : j < rhs.data.length) :
    (null_at lhs i = true → null_at rhs j = true →
      dispatched_element_comparator true lhs.dtype lhs i rhs j s
        = some weak_ordering.EQUIVALENT)
    ∧ (null_at lhs i = true → null_at rhs j = false →
      dispatched_element_comparator true lhs.dtype lhs i rhs j s
        = some (if s = null_size.LOWEST then weak_ordering.LESS
            else weak_ordering.GREATER))
    ∧ (null_at lhs i = false → null_at rhs j = true →
      dispatched_element_comparator true lhs.dtype lhs i rhs j s
        = some (if s = null_size.LOWEST then weak_ordering.GREATER
            else weak_ordering.LESS))
    ∧ (null_at lhs i = false → null_at rhs j = false →
      dispatched_element_comparator true lhs.dtype lhs i rhs j s
        = some (int_cmp3 (lhs.data.getD i 0) (rhs.data.getD j 0))) := by
  refine ⟨fun h1 h2 => ?_, fun h1 h2 => ?_, fun h1 h2 => ?_, fun h1 h2 => ?_⟩ <;>
    cases s <;>
    simp [dispatched_element_comparator, hc, element_relational_comparator,
      h1, h2, compare_data, int_cmp3]

theorem element_comparator_cases_witness :
    dispatched_element_comparator true wcolN.dtype wcolN 0 wcolP 0
      null_size.LOWEST = some weak_ordering.LESS := by
  have h := (element_comparator_cases wcolN wcolP 0 0 null_size.LOWEST rfl rfl
    (by decide) (by decide)).2.1 (by decide) (by decide)
  rw [h]
  decide

/-- C3: constructing a row comparator from two tables is rejected if and only
if the two tables have differing column counts. -/
theorem make_row_comparator_rejected_iff_mismatched_counts
    (lhs rhs : table_device_view) (s : null_size)
    (co : Option (Nat → order)) :
    make_row_lexicographic_comparator lhs rhs s co = none
      ↔ lhs.num_columns ≠ rhs.num_columns := by
  unfold make_row_lexicographic_comparator
  split_ifs with h <;> simp [h]

/-- C4: dispatching the element comparator at an element type with no
relational ordering reaches the `release_assert(false)` overload: the
operation aborts (modelled `none`) and no `LESS`/`EQUIVALENT`/`GREATER`
verdict is ever produced. -/
theorem dispatch_noncomparable_aborts (has_nulls : Bool) (t : DType)
    (lhs : column_device_view) (i : Nat) (rhs : column_device_view) (j : Nat)
    (s : null_size) (h : is_relationally_comparable t = false) :
    dispatched_element_comparator has_nulls t lhs i rhs j s = none := by
  simp [dispatched_element_comparator, h]

theorem dispatch_noncomparable_aborts_witness :
    dispatched_element_comparator true DType.CATEGORY wcolC 0 wcolC 0
      null_size.LOWEST = none :=
  dispatch_noncomparable_aborts true DType.CATEGORY wcolC 0 wcolC 0
    null_size.LOWEST rfl

/-- C5: comparing a row with itself (same table on both sides) under any
policy and column-order configuration never yields `true`; whenever every
column's type is relationally comparable (so that the comparison returns at
all instead of aborting), the result is exactly `false` (irreflexivity). -/
theorem isLess_irreflexive (has_nulls : Bool) (t : table_device_view)
    (s : null_size) (co : Option (Nat → order)) (r : Nat) :
    isLess has_nulls ⟨t, t, s, co⟩ r r ≠ some true
    ∧ ((∀ i, i < t.num_columns →
        is_relationally_comparable ((t.column i).dtype) = true) →
      isLess has_nulls ⟨t, t, s, co⟩ r r = some false) := by
  constructor
  · rcases lex_less_go_self_cases has_nulls t s co r t.num_columns 0 with h | h <;>
      · intro hcontra
        rw [show isLess has_nulls ⟨t, t, s, co⟩ r r
          = lex_less_go has_nulls ⟨t, t, s, co⟩ r r 0 t.num_columns from rfl] at hcontra
        rw [h] at hcontra
        exact absurd hcontra (by simp)
  · intro hcmp
    rw [isLess_eq_keys has_nulls t t s co hcmp r r, keys_cmp3_refl]
    rfl

theorem isLess_irreflexive_witness :
    isLess true ⟨wtab1, wtab1, null_size.LOWEST, none⟩ 2 2 = some false :=
  (isLess_irreflexive true wtab1 null_size.LOWEST none 2).2 (by decide)

/-- C6: for a table compared against itself under any fixed configuration
(all columns comparable, so comparisons return), `isLess` is transitive, and
incomparability (neither row less than the other) is an equivalence
relation on row indices. -/
theorem isLess_strict_weak_order (has_nulls : Bool) (t : table_device_view)
    (s : null_size) (co : Option (Nat → order))
    (hcmp : ∀ i, i < t.num_columns →
      is_relationally_comparable ((t.column i).dtype) = true) :
    (∀ a b c : Nat,
      isLess has_nulls ⟨t, t, s, co⟩ a b = some true →
      isLess has_nulls ⟨t, t, s, co⟩ b c = some true →
      isLess has_nulls ⟨t, t, s, co⟩ a c = some true)
    ∧ Equivalence (fun a b : Nat =>
        isLess has_nulls ⟨t, t, s, co⟩ a b = some false ∧
        isLess has_nulls ⟨t, t, s, co⟩ b a = some false) := by
  have htrue : ∀ a b : Nat, isLess has_nulls ⟨t, t, s, co⟩ a b = some true ↔
      keys_cmp3 (row_keys_from has_nulls s t co a 0 t.num_columns)
        (row_keys_from has_nulls s t co b 0 t.num_columns)
          = weak_ordering.LESS := by
    intro a b
    rw [isLess_eq_keys has_nulls t t s co hcmp a b]
    simp
  have hfalse : ∀ a b : Nat, isLess has_nulls ⟨t, t, s, co⟩ a b = some false ↔
      keys_cmp3 (row_keys_from has_nulls s t co a 0 t.num_columns)
        (row_keys_from has_nulls s t co b 0 t.num_columns)
          ≠ weak_ordering.LESS := by
    intro a b
    rw [isLess_eq_keys has_nulls t t s co hcmp a b]
    simp
  constructor
  · intro a b c hab hbc
    rw [htrue] at hab hbc ⊢
    exact keys_cmp3_trans_less hab hbc
  · refine ⟨?_, ?_, ?_⟩
    · intro a
      constructor <;> (rw [hfalse]; rw [keys_cmp3_refl]; simp)
    · intro a b h
      exact ⟨h.2, h.1⟩
    · intro a b c hab hbc
      have e1 := keys_cmp3_eq_equiv_of_not_less
        ((hfalse a b).mp hab.1) ((hfalse b a).mp hab.2)
      have e2 := keys_cmp3_eq_equiv_of_not_less
        ((hfalse b c).mp hbc.1) ((hfalse c b).mp hbc.2)
      have e3 := keys_cmp3_trans_equiv
        (by rw [row_keys_from_length, row_keys_from_length])
        (by rw [row_keys_from_length, row_keys_from_length]) e1 e2
      constructor
      · rw [hfalse]
        simp [e3]
      · rw [hfalse]
        rw [keys_cmp3_swap, e3]
        simp [opp]

theorem isLess_strict_weak_order_witness :
    isLess true ⟨wtab1, wtab1, null_size.LOWEST, none⟩ 0 2 = some true :=
  (isLess_strict_weak_order true wtab1 null_size.LOWEST none (by decide)).1
    0 1 2 (by decide) (by decide)

/-- C7: flipping column `i`'s direction from ascending to descending (all
other columns unchanged) negates `isLess` whenever column `i` is the deciding
(first non-`EQUIVALENT`) column, and leaves `isLess` unchanged whenever an
earlier column `k < i` already decided; the descending direction is realized
by invoking the element comparison with the operands swapped. -/
theorem order_flip_inverts_deciding_column (has_nulls : Bool)
    (lhs rhs : table_device_view) (s : null_size) (co co2 : Nat → order)
    (i k li ri : Nat)
    (hco : co i = order.ASCENDING) (hco2 : co2 i = order.DESCENDING)
    (hoff : ∀ j, j ≠ i → co2 j = co j) :
    ((i < lhs.num_columns →
      (∀ j, j < i → column_state has_nulls ⟨lhs, rhs, s, some co⟩ li ri j
        = some weak_ordering.EQUIVALENT) →
      column_state has_nulls ⟨lhs, rhs, s, some co⟩ li ri i
        ≠ some weak_ordering.EQUIVALENT →
      isLess has_nulls ⟨lhs, rhs, s, some co2⟩ li ri
        = (isLess has_nulls ⟨lhs, rhs, s, some co⟩ li ri).map (fun b => !b)))
    ∧ (k < i → k < lhs.num_columns →
      (∀ j, j < k → column_state has_nulls ⟨lhs, rhs, s, some co⟩ li ri j
        = some weak_ordering.EQUIVALENT) →
      column_state has_nulls ⟨lhs, rhs, s, some co⟩ li ri k
        ≠ some weak_ordering.EQUIVALENT →
      isLess has_nulls ⟨lhs, rhs, s, some co2⟩ li ri
        = isLess has_nulls ⟨lhs, rhs, s, some co⟩ li ri) := by
  constructor
  · intro hi hprev hdec
    have hswap : column_state has_nulls ⟨lhs, rhs, s, some co2⟩ li ri i
        = (column_state has_nulls ⟨lhs, rhs, s, some co⟩ li ri i).map opp := by
      rw [column_state_eq_order_at, column_state_eq_order_at]
      simp only [order_at, hco, hco2]
      rw [if_pos trivial]
      exact dispatched_element_comparator_swap has_nulls _ _ li _ ri s
    have hdec2 : column_state has_nulls ⟨lhs, rhs, s, some co2⟩ li ri i
        ≠ some weak_ordering.EQUIVALENT := by
      rw [hswap]
      cases hcs : column_state has_nulls ⟨lhs, rhs, s, some co⟩ li ri i with
      | none => simp
      | some st => cases st <;> simp_all [opp]
    have hprev2 : ∀ j, j < i →
        column_state has_nulls ⟨lhs, rhs, s, some co2⟩ li ri j
          = some weak_ordering.EQUIVALENT := by
      intro j hj
      rw [column_state_congr has_nulls ⟨lhs, rhs, s, some co2⟩
        ⟨lhs, rhs, s, some co⟩ li ri j rfl rfl rfl
        (by simp [order_at, hoff j (by omega)])]
      exact hprev j hj
    have hA := lex_less_go_decided has_nulls ⟨lhs, rhs, s, some co⟩ li ri i 0
      lhs.num_columns i (by omega) (by omega) (fun j _ hj => hprev j hj) hdec
    have hB := lex_less_go_decided has_nulls ⟨lhs, rhs, s, some co2⟩ li ri i 0
      lhs.num_columns i (by omega) (by omega) (fun j _ hj => hprev2 j hj) hdec2
    calc isLess has_nulls ⟨lhs, rhs, s, some co2⟩ li ri
        = (column_state has_nulls ⟨lhs, rhs, s, some co2⟩ li ri i).map
            (fun st => decide (st = weak_ordering.LESS)) := hB
      _ = (isLess has_nulls ⟨lhs, rhs, s, some co⟩ li ri).map (fun b => !b) := by
          rw [hswap]
          have hA2 : isLess has_nulls ⟨lhs, rhs, s, some co⟩ li ri
              = (column_state has_nulls ⟨lhs, rhs, s, some co⟩ li ri i).map
                (fun st => decide (st = weak_ordering.LESS)) := hA
          rw [hA2]
          cases hcs : column_state has_nulls ⟨lhs, rhs, s, some co⟩ li ri i with
          | none => rfl
          | some st =>
            cases st with
            | LESS => rfl
            | EQUIVALENT => exact absurd hcs hdec
            | GREATER => rfl
  · intro hki hk hprev hdec
    have hoffj : ∀ j, j ≤ k →
        column_state has_nulls ⟨lhs, rhs, s, some co2⟩ li ri j
          = column_state has_nulls ⟨lhs, rhs, s, some co⟩ li ri j := by
      intro j hj
      exact column_state_congr has_nulls ⟨lhs, rhs, s, some co2⟩
        ⟨lhs, rhs, s, some co⟩ li ri j rfl rfl rfl
        (by simp [order_at, hoff j (by omega)])
    have hA := lex_less_go_decided has_nulls ⟨lhs, rhs, s, some co⟩ li ri k 0
      lhs.num_columns k (by omega) (by omega) (fun j _ hj => hprev j hj) hdec
    have hB := lex_less_go_decided has_nulls ⟨lhs, rhs, s, some co2⟩ li ri k 0
      lhs.num_columns k (by omega) (by omega)
      (fun j _ hj => (hoffj j (by omega)).trans (hprev j hj))
      (by rw [hoffj k (le_refl k)]; exact hdec)
    calc isLess has_nulls ⟨lhs, rhs, s, some co2⟩ li ri
        = (column_state has_nulls ⟨lhs, rhs, s, some co2⟩ li ri k).map
            (fun st => decide (st = weak_ordering.LESS)) := hB
      _ = isLess has_nulls ⟨lhs, rhs, s, some co⟩ li ri := by
          rw [hoffj k (le_refl k)]
          exact hA.symm

theorem order_flip_inverts_deciding_column_witness :
    isLess true ⟨wtab1, wtab1, null_size.LOWEST, some wco2⟩ 0 1
      = (isLess true ⟨wtab1, wtab1, null_size.LOWEST, some wco⟩ 0 1).map
          (fun b => !b) :=
  (order_flip_inverts_deciding_column true wtab1 wtab1 null_size.LOWEST
    wco wco2 0 0 0 1 rfl rfl (fun j hj => by simp [wco2, wco, hj])).1
    (by decide) (by decide) (by decide)

/-- C8: when no compared element is null in either operand (and every column
is comparable), `isLess` returns exactly the reference lexicographic
comparison of the underlying values in column order with per-column direction
applied (`spec_lex_less`, modelled from the spec), for either comparator
instantiation and independently of the null-ordering policy (both are
universally quantified and absent from the right-hand side). -/
theorem isLess_refines_value_lexicographic (has_nulls : Bool)
    (lhs rhs : table_device_view) (s : null_size) (co : Option (Nat → order))
    (a b : Nat) (hcount : lhs.num_columns = rhs.num_columns)
    (hcmp : ∀ i, i < lhs.num_columns →
      is_relationally_comparable ((lhs.column i).dtype) = true)
    (hnonull : ∀ i, i < lhs.num_columns →
      null_at (lhs.column i) a = false ∧ null_at (rhs.column i) b = false) :
    isLess has_nulls ⟨lhs, rhs, s, co⟩ a b
      = some (spec_lex_less lhs rhs co a b) :=
  lex_less_go_eq_spec_walk has_nulls ⟨lhs, rhs, s, co⟩ a b lhs.num_columns 0
    (fun j _ h2 => hcmp j (by omega)) (fun j _ h2 => hnonull j (by omega))

theorem isLess_refines_value_lexicographic_witness :
    isLess true ⟨wtab1, wtab1, null_size.HIGHEST, none⟩ 0 1
      = some (spec_lex_less wtab1 wtab1 none 0 1) :=
  isLess_refines_value_lexicographic true wtab1 wtab1 null_size.HIGHEST none
    0 1 rfl (by decide) (by decide)

/-- C9: under the "nulls lowest" policy, when a descending column is the
deciding column and the left row's element there is null while the right
row's element is not, the swap-adjusted verdict of that column is `GREATER`
(the null sorts after the non-null value) and `isLess` is `false` — the
descending operand swap effectively inverts the null policy on that
column. -/
theorem descending_null_lowest_sorts_after (lhs rhs : table_device_view)
    (co : Nat → order) (a b i : Nat)
    (hi : i < lhs.num_columns)
    (hdesc : co i = order.DESCENDING)
    (hcmpi : is_relationally_comparable ((lhs.column i).dtype) = true)
    (hlnull : null_at (lhs.column i) a = true)
    (hrnull : null_at (rhs.column i) b = false)
    (hearlier : ∀ j, j < i →
      column_state true ⟨lhs, rhs, null_size.LOWEST, some co⟩ a b j
        = some weak_ordering.EQUIVALENT) :
    column_state true ⟨lhs, rhs, null_size.LOWEST, some co⟩ a b i
      = some weak_ordering.GREATER
    ∧ isLess true ⟨lhs, rhs, null_size.LOWEST, some co⟩ a b = some false := by
  have hstate : column_state true ⟨lhs, rhs, null_size.LOWEST, some co⟩ a b i
      = some weak_ordering.GREATER := by
    rw [column_state_eq_order_at]
    simp [order_at, hdesc, dispatched_element_comparator, hcmpi,
      element_relational_comparator, hlnull, hrnull]
  have hdec : column_state true ⟨lhs, rhs, null_size.LOWEST, some co⟩ a b i
      ≠ some weak_ordering.EQUIVALENT := by
    rw [hstate]
    simp
  have h2 := lex_less_go_decided true ⟨lhs, rhs, null_size.LOWEST, some co⟩
    a b i 0 lhs.num_columns i (by omega) (by omega)
    (fun j _ hj => hearlier j hj) hdec
  refine ⟨hstate, ?_⟩
  calc isLess true ⟨lhs, rhs, null_size.LOWEST, some co⟩ a b
      = (column_state true ⟨lhs, rhs, null_size.LOWEST, some co⟩ a b i).map
          (fun st => decide (st = weak_ordering.LESS)) := h2
    _ = some false := by rw [hstate]; rfl

theorem descending_null_lowest_sorts_after_witness :
    column_state true ⟨⟨[wcolN]⟩, ⟨[wcolP]⟩, null_size.LOWEST, some wcoD⟩ 0 0 0
      = some weak_ordering.GREATER
    ∧ isLess true ⟨⟨[wcolN]⟩, ⟨[wcolP]⟩, null_size.LOWEST, some wcoD⟩ 0 0
      = some false :=
  descending_null_lowest_sorts_after ⟨[wcolN]⟩ ⟨[wcolP]⟩ wcoD 0 0 0
    (by decide) rfl (by decide) (by decide) (by decide) (by decide)

/-- C10: with the `has_nulls` template flag `false`, the element comparison
depends only on the raw data values: two invocations that agree on the data
buffers but differ arbitrarily in validity bitmaps and in the null-ordering
policy return the same verdict. -/
theorem no_nulls_ignores_validity_and_policy
    (lhs rhs lhs2 rhs2 : column_device_view) (i j : Nat) (s s2 : null_size)
    (hl : lhs.data = lhs2.data) (hr : rhs.data = rhs2.data) :
    element_relational_comparator false lhs i rhs j s
      = element_relational_comparator false lhs2 i rhs2 j s2 := by
  simp [element_relational_comparator, compare_data, hl, hr]

theorem no_nulls_ignores_validity_and_policy_witness :
    element_relational_comparator false wcolN 0 wcolP 1 null_size.LOWEST
      = element_relational_comparator false ⟨DType.INT32, [5, 7], none⟩ 0
          ⟨DType.INT32, [9, 4], some [true, false]⟩ 1 null_size.HIGHEST :=
  no_nulls_ignores_validity_and_policy wcolN wcolP
    ⟨DType.INT32, [5, 7], none⟩ ⟨DType.INT32, [9, 4], some [true, false]⟩
    0 1 null_size.LOWEST null_size.HIGHEST rfl rfl

end cudf
